import Mathlib

/-!
Verification of the Capture SDK client (numbersprotocol/capture-sdk).

This file gives a shallow embedding in Lean 4 of the core of the SDK:
the error taxonomy and HTTP-status mapping (src/src/types.ts, errors part),
the MIME resolver, the file-input normalizer, the crypto signing helpers
(src/src/crypto.ts), and the Capture client workflows register, update,
getHistory, getAssetTree and searchAsset (src/unnamed/part_008, which is
client.ts; src/unnamed/part_004 holds an identical earlier copy of the
same functions).

Effects are made explicit:

* network traffic is represented by a trace of ApiCall values returned
  alongside each result, so "endpoint X is never called" is the statement
  that no such call occurs in the trace;
* the environment (file system, wall clock, crypto primitives, and each
  remote endpoint response) is a record SdkEnv passed to every workflow;
* JavaScript byte-buffer aliasing is modeled by tagging every byte vector
  with the identity of the caller-owned buffer it aliases, if any: the
  constructions that JavaScript specifies to copy (TypedArray-of-TypedArray
  construction, Blob.arrayBuffer) produce a fresh vector with no tag, and
  the constructions that JavaScript specifies to share memory (plain
  assignment of a Uint8Array, the three-argument Uint8Array view over a
  Buffer) keep the tag of the source buffer.

Theorems at the end settle the frozen claims C1 to C10 about this code.
-/

namespace CaptureSDK

/-- Lower-cases a string character by character, as the ASCII fragment of
the JavaScript toLowerCase used by the MIME resolver. -/
def toLowerCase (s : String) : String := String.mk (s.data.map Char.toLower)

/-- Splits a character list at every occurrence of the separator, keeping
empty segments, as JavaScript String.prototype.split with a one-character
separator. -/
def splitOnChar (sep : Char) : List Char → List (List Char)
  | [] => [[]]
  | c :: rest =>
    if c = sep then [] :: splitOnChar sep rest
    else
      match splitOnChar sep rest with
      | [] => [[c]]
      | h :: t => (c :: h) :: t

/-- String form of splitOnChar. -/
def splitString (sep : Char) (s : String) : List String :=
  (splitOnChar sep s.data).map String.mk

/-- Decides whether the second character list occurs as a contiguous
sublist of the first, as JavaScript String.prototype.includes. -/
def listContainsSub : List Char → List Char → Bool
  | _, [] => true
  | [], _ => false
  | c :: rest, sub => List.isPrefixOf sub (c :: rest) || listContainsSub rest sub

/-- String form of listContainsSub: JavaScript msg.includes(sub). -/
def strContains (s sub : String) : Bool := listContainsSub s.toList sub.toList

/-! ## Error model (error classes of src/src/types.ts) -/

/-- Model of the CaptureError class hierarchy: each throwable subclass is
identified by its name and code fields, with the message and optional
HTTP status it carries. -/
structure CaptureError where
  name : String
  message : String
  code : String
  statusCode : Option Nat
deriving Repr, DecidableEq

/-- ValidationError: code VALIDATION_ERROR, no status code. -/
def validationError (message : String) : CaptureError :=
  ⟨"ValidationError", message, "VALIDATION_ERROR", none⟩

/-- AuthenticationError: code AUTHENTICATION_ERROR, status 401. -/
def authenticationError (message : String) : CaptureError :=
  ⟨"AuthenticationError", message, "AUTHENTICATION_ERROR", some 401⟩

/-- PermissionError: code PERMISSION_ERROR, status 403. -/
def permissionError (message : String) : CaptureError :=
  ⟨"PermissionError", message, "PERMISSION_ERROR", some 403⟩

/-- NotFoundError: message mentions the nid when known, code NOT_FOUND,
status 404. -/
def notFoundError (nid : Option String) : CaptureError :=
  ⟨"NotFoundError",
    (match nid with
      | some n => "Asset not found: " ++ n
      | none => "Asset not found"),
    "NOT_FOUND", some 404⟩

/-- InsufficientFundsError: code INSUFFICIENT_FUNDS, status 400. -/
def insufficientFundsError (message : String) : CaptureError :=
  ⟨"InsufficientFundsError", message, "INSUFFICIENT_FUNDS", some 400⟩

/-- NetworkError: code NETWORK_ERROR, carries the given status code. -/
def networkError (message : String) (statusCode : Option Nat) : CaptureError :=
  ⟨"NetworkError", message, "NETWORK_ERROR", statusCode⟩

/-- Domain error thrown by getAssetTree when the history service returns
zero commits: new CaptureError(message, NO_COMMITS, 404). -/
def noCommitsError : CaptureError :=
  ⟨"CaptureError", "No commits found for asset", "NO_COMMITS", some 404⟩

/-- Model of createApiError (src/src/types.ts): maps an HTTP status code
and server message to a typed error; 400 splits on a lower-cased substring
match for "insufficient". -/
def createApiError (statusCode : Nat) (message : String) (nid : Option String) :
    CaptureError :=
  if statusCode = 400 then
    if strContains (toLowerCase message) "insufficient" then
      insufficientFundsError message
    else
      validationError message
  else if statusCode = 401 then authenticationError message
  else if statusCode = 403 then permissionError message
  else if statusCode = 404 then notFoundError nid
  else networkError message (some statusCode)

/-- Decides whether a result is a thrown ValidationError. -/
def isValidationErr {α : Type} : Except CaptureError α → Bool
  | Except.error e => e.code == "VALIDATION_ERROR"
  | Except.ok _ => false

/-! ## MIME resolver (getMimeType in client.ts) -/

/-- The fixed extension table MIME_TYPES of client.ts. -/
def MIME_TYPES : List (String × String) :=
  [("jpg", "image/jpeg"), ("jpeg", "image/jpeg"), ("png", "image/png"),
   ("gif", "image/gif"), ("webp", "image/webp"), ("svg", "image/svg+xml"),
   ("mp4", "video/mp4"), ("webm", "video/webm"), ("mov", "video/quicktime"),
   ("mp3", "audio/mpeg"), ("wav", "audio/wav"), ("pdf", "application/pdf"),
   ("json", "application/json"), ("txt", "text/plain")]

/-- Model of getMimeType: filename.split(".").pop().toLowerCase() looked up
in MIME_TYPES with default application/octet-stream. Note split never
returns an empty array, so pop takes the last segment, which is the whole
filename when it contains no dot. -/
def getMimeType (filename : String) : String :=
  let ext := toLowerCase ((splitString '.' filename).getLastD "")
  (MIME_TYPES.lookup ext).getD "application/octet-stream"

/-- Spec-side resolver stated from the words of the specification, for
comparison with getMimeType: the extension is the part after the final dot
and is missing when the filename contains no dot; a missing or unknown
extension resolves to application/octet-stream. -/
def getMimeTypeSpec (filename : String) : String :=
  let parts := splitString '.' filename
  if parts.length ≤ 1 then "application/octet-stream"
  else (MIME_TYPES.lookup (toLowerCase (parts.getLastD ""))).getD
    "application/octet-stream"

/-! ## File input model and normalizer (normalizeFile in client.ts) -/

/-- Polymorphic file input, the FileInput union of types.ts. Caller-owned
binary buffers (Node Buffer, Uint8Array) carry the identity bufId of the
memory region the caller owns; File and Blob expose their bytes only
through arrayBuffer, which returns a fresh copy by specification, so they
carry no region identity. -/
inductive FileInput where
  | path (p : String)
  | file (name : String) (mime : String) (content : List Nat)
  | blob (mime : String) (content : List Nat)
  | buffer (bufId : Nat) (content : List Nat)
  | uint8 (bufId : Nat) (content : List Nat)
deriving Repr, DecidableEq

/-- A byte vector together with the caller-owned buffer it aliases, when
it is a shared view rather than an independently-owned copy. -/
structure Bytes where
  content : List Nat
  sourceId : Option Nat
deriving Repr, DecidableEq

/-- SignOptions of types.ts. -/
structure SignOptions where
  privateKey : String
deriving Repr, DecidableEq

/-- RegisterOptions of types.ts; every field is optional. -/
structure RegisterOptions where
  filename : Option String := none
  caption : Option String := none
  headline : Option String := none
  publicAccess : Option Bool := none
  sign : Option SignOptions := none
deriving Repr, DecidableEq

/-- UpdateOptions of types.ts. The unknown-valued customMetadata record is
modeled as an association list of string keys and values. -/
structure UpdateOptions where
  caption : Option String := none
  headline : Option String := none
  commitMessage : Option String := none
  customMetadata : Option (List (String × String)) := none
deriving Repr, DecidableEq

/-- The result record of normalizeFile. -/
structure NormalizedFile where
  data : Bytes
  filename : String
  mimeType : String
deriving Repr, DecidableEq

/-- Node environment exposed to normalizeFile: whether process.versions.node
exists, and the file-system contents read by fs.readFile. Read failures
abort the surrounding call before this model applies, so readFile is total
here. -/
structure NodeEnv where
  isNode : Bool
  readFile : String → List Nat

/-- Model of path.basename restricted to what the SDK exercises: the final
slash-delimited segment of the path (trailing-separator stripping of the
Node implementation is not modeled). -/
def basename (p : String) : String := (splitString '/' p).getLastD p

/-- JavaScript truthiness of an optional string: undefined and the empty
string are falsy. -/
def truthyStr : Option String → Bool
  | none => false
  | some s => s ≠ ""

/-- JavaScript truthiness of an optional FileInput: undefined is falsy, an
empty path string is falsy, and every object variant is truthy. -/
def truthyFile : Option FileInput → Bool
  | none => false
  | some (FileInput.path p) => p ≠ ""
  | some _ => true

/-- Filename override carried by the options argument: options?.filename. -/
def optFilename (options : Option RegisterOptions) : Option String :=
  options.bind (fun o => o.filename)

/-- Model of normalizeFile (client.ts lines 160 to 210). Branch by branch:
a path string requires a Node environment and copies the read bytes
(TypedArray-of-TypedArray construction copies); a File copies through
arrayBuffer and uses its own name, with its own type unless empty; a Blob
requires the filename option (truthy) and copies through arrayBuffer; a
Uint8Array requires the filename option and is returned as-is (aliasing the
caller buffer); a Buffer requires the filename option and is wrapped in a
three-argument Uint8Array view (aliasing the caller buffer). -/
def normalizeFile (env : NodeEnv) (input : FileInput)
    (options : Option RegisterOptions) : Except CaptureError NormalizedFile :=
  match input with
  | FileInput.path p =>
    if !env.isNode then
      Except.error (validationError
        "File path input is only supported in Node.js environment")
    else
      let filename := basename p
      Except.ok ⟨⟨env.readFile p, none⟩, filename, getMimeType filename⟩
  | FileInput.file name mime content =>
    Except.ok ⟨⟨content, none⟩, name,
      if mime ≠ "" then mime else getMimeType name⟩
  | FileInput.blob mime content =>
    if !truthyStr (optFilename options) then
      Except.error (validationError "filename is required for Blob input")
    else
      let fname := (optFilename options).getD ""
      Except.ok ⟨⟨content, none⟩, fname,
        if mime ≠ "" then mime else getMimeType fname⟩
  | FileInput.buffer bufId content =>
    if !truthyStr (optFilename options) then
      Except.error (validationError "filename is required for binary input")
    else
      let fname := (optFilename options).getD ""
      Except.ok ⟨⟨content, some bufId⟩, fname, getMimeType fname⟩
  | FileInput.uint8 bufId content =>
    if !truthyStr (optFilename options) then
      Except.error (validationError "filename is required for binary input")
    else
      let fname := (optFilename options).getD ""
      Except.ok ⟨⟨content, some bufId⟩, fname, getMimeType fname⟩

/-- The bytes a given input denotes, for stating content preservation. -/
def sourceContent (env : NodeEnv) : FileInput → List Nat
  | FileInput.path p => env.readFile p
  | FileInput.file _ _ content => content
  | FileInput.blob _ content => content
  | FileInput.buffer _ content => content
  | FileInput.uint8 _ content => content

/-- The caller-owned buffer that the code aliases for a given input: the
two raw binary variants share memory with the caller, the others do not. -/
def aliasOf : FileInput → Option Nat
  | FileInput.buffer bufId _ => some bufId
  | FileInput.uint8 bufId _ => some bufId
  | _ => none

/-! ## Crypto model (src/src/crypto.ts) -/

/-- External cryptographic primitives, kept abstract: SHA-256 as a hex
string over bytes (crypto.subtle.digest), the EIP-191 personal-message
signature of a message under a private key (Wallet.signMessage), and the
address derivable from a private key (Wallet.address). The SDK treats all
three as opaque capabilities. -/
structure CryptoPrims where
  sha256hex : List Nat → String
  signMessage : String → String → String
  addressOf : String → String

/-- IntegrityProof of types.ts, with its snake_case wire field names. -/
structure IntegrityProof where
  proof_hash : String
  asset_mime_type : String
  created_at : Int
deriving Repr, DecidableEq

/-- AssetSignature of types.ts. -/
structure AssetSignature where
  proofHash : String
  provider : String
  signature : String
  publicKey : String
  integritySha : String
deriving Repr, DecidableEq

/-- Escapes one character for a JSON string literal: quote and backslash
are escaped, other characters pass through (control-character escaping of
JSON.stringify is not exercised by the SDK wire values). -/
def jsonEscapeChar (c : Char) : String :=
  if c.toNat = 34 then "\\\""
  else if c.toNat = 92 then "\\\\"
  else String.singleton c

/-- JSON string literal for a Lean string. -/
def jsonStr (s : String) : String :=
  "\"" ++ String.join (s.toList.map jsonEscapeChar) ++ "\""

/-- JSON.stringify of an IntegrityProof, with the insertion key order of
createIntegrityProof: proof_hash, asset_mime_type, created_at. -/
def serializeIntegrityProof (p : IntegrityProof) : String :=
  "\x7b\"proof_hash\":" ++ jsonStr p.proof_hash
    ++ ",\"asset_mime_type\":" ++ jsonStr p.asset_mime_type
    ++ ",\"created_at\":" ++ toString p.created_at ++ "\x7d"

/-- JSON.stringify of an AssetSignature, with the insertion key order of
the object literal returned by signIntegrityProof. -/
def serializeAssetSignature (s : AssetSignature) : String :=
  "\x7b\"proofHash\":" ++ jsonStr s.proofHash
    ++ ",\"provider\":" ++ jsonStr s.provider
    ++ ",\"signature\":" ++ jsonStr s.signature
    ++ ",\"publicKey\":" ++ jsonStr s.publicKey
    ++ ",\"integritySha\":" ++ jsonStr s.integritySha ++ "\x7d"

/-- UTF-8 bytes of a string, as TextEncoder().encode. -/
def utf8Bytes (s : String) : List Nat :=
  s.toUTF8.toList.map (fun b => b.toNat)

/-- Model of createIntegrityProof (crypto.ts): proof over a precomputed
content hash and mime type, stamped with the current wall-clock time in
epoch milliseconds, supplied here as the argument now. -/
def createIntegrityProof (proofHash : String) (mimeType : String)
    (now : Int) : IntegrityProof :=
  ⟨proofHash, mimeType, now⟩

/-- Model of signIntegrityProof (crypto.ts lines 37 to 58): serializes the
proof to JSON, hashes those bytes to integritySha, signs integritySha as a
personal message under the key, and returns the record with the constant
provider capture-sdk and the address derived from the key. It takes no
asset bytes: integritySha is a function of the proof record alone. -/
def signIntegrityProof (cp : CryptoPrims) (proof : IntegrityProof)
    (privateKey : String) : AssetSignature :=
  let proofJson := serializeIntegrityProof proof
  let integritySha := cp.sha256hex (utf8Bytes proofJson)
  { proofHash := proof.proof_hash
    provider := "capture-sdk"
    signature := cp.signMessage privateKey integritySha
    publicKey := cp.addressOf privateKey
    integritySha := integritySha }

/-! ## Wire model: form data, API calls, environment -/

/-- One entry of a FormData body: either a text field or a binary file
entry with its content, content type and filename. -/
inductive FormField where
  | text (name : String) (value : String)
  | fileEntry (name : String) (content : List Nat) (mime : String)
      (filename : String)
deriving Repr, DecidableEq

/-- The field name of a FormData entry. -/
def fieldName : FormField → String
  | FormField.text n _ => n
  | FormField.fileEntry n _ _ _ => n

/-- Projection of a Commit posted to the merge service. -/
structure CommitData where
  assetTreeCid : String
  timestampCreated : Int
deriving Repr, DecidableEq

/-- One outbound network request made by the client, identified by the
endpoint and the payload it carries. -/
inductive ApiCall where
  | assetsPost (url : String) (form : List FormField)
  | assetsPatch (url : String) (form : List FormField)
  | assetsGet (url : String)
  | history (nid : String) (testnet : Bool)
  | merge (body : List CommitData)
  | search (form : List FormField)
deriving Repr, DecidableEq

/-- Outcome of a fetch as the SDK observes it: a parsed success payload,
or a failure status together with the error message the SDK extracts from
the response body (or its fallback message). -/
inductive FetchOutcome (α : Type) where
  | ok (value : α)
  | fail (status : Nat) (message : String)
deriving Repr, DecidableEq

/-- AssetApiResponse of types.ts. -/
structure AssetApiResponse where
  id : String
  asset_file_name : String
  asset_file_mime_type : String
  caption : Option String := none
  headline : Option String := none
deriving Repr, DecidableEq

/-- CommitApiResponse of types.ts. -/
structure CommitApiResponse where
  assetTreeCid : String
  txHash : String
  author : String
  committer : String
  timestampCreated : Int
  action : String
deriving Repr, DecidableEq

/-- HistoryApiResponse of types.ts. -/
structure HistoryApiResponse where
  nid : String
  commits : List CommitApiResponse
deriving Repr, DecidableEq

/-- The merged provenance record; its free-form fields are modeled as an
association list, since no workflow inspects them. -/
structure AssetTree where
  fields : List (String × String)
deriving Repr, DecidableEq

/-- Response of the merge endpoint: an optional mergedAssetTree field and
the whole body, of which getAssetTree keeps the former when present. -/
structure MergeApiResponse where
  mergedAssetTree : Option AssetTree
  whole : AssetTree
deriving Repr, DecidableEq

/-- One similar match of the asset-search response. -/
structure SimilarMatch where
  nid : String
  distance : Rat
deriving Repr, DecidableEq

/-- Raw asset-search response body; absent fields are defaulted by the
mapping in searchAsset. -/
structure SearchApiResponse where
  precise_match : Option String := none
  input_file_mime_type : Option String := none
  similar_matches : Option (List SimilarMatch) := none
  order_id : Option String := none
deriving Repr, DecidableEq

/-- AssetSearchResult of types.ts after mapping. -/
structure AssetSearchResult where
  preciseMatch : String
  inputFileMimeType : String
  similarMatches : List SimilarMatch
  orderId : String
deriving Repr, DecidableEq

/-- Complete environment a client call runs against: the Node runtime, the
crypto primitives, the wall clock, and the response each remote endpoint
would produce for a given request. -/
structure SdkEnv where
  node : NodeEnv
  crypto : CryptoPrims
  now : Int
  assetResponse : ApiCall → FetchOutcome AssetApiResponse
  historyResponse : String → Bool → FetchOutcome HistoryApiResponse
  mergeResponse : List CommitData → FetchOutcome MergeApiResponse
  searchResponse : List FormField → FetchOutcome SearchApiResponse

/-! ## Client construction and response mapping -/

/-- CaptureOptions of types.ts; token is optional here to model a missing
field at runtime. -/
structure CaptureOptions where
  token : Option String := none
  testnet : Option Bool := none
  baseUrl : Option String := none
deriving Repr, DecidableEq

/-- DEFAULT_BASE_URL of client.ts. -/
def DEFAULT_BASE_URL : String := "https://api.numbersprotocol.io/api/v3"

/-- The constructed Capture client: three read-only private fields. Every
workflow below is a pure function of this record, so a constructed client
is never mutated by an operation. -/
structure Capture where
  token : String
  baseUrl : String
  testnet : Bool
deriving Repr, DecidableEq

/-- Model of the Capture constructor: throws ValidationError when the
token is falsy (missing or empty), otherwise stores the token, the testnet
flag defaulted to false, and the base URL defaulted to DEFAULT_BASE_URL. -/
def mkCapture (options : CaptureOptions) : Except CaptureError Capture :=
  if !truthyStr options.token then
    Except.error (validationError "token is required")
  else
    Except.ok
      { token := options.token.getD ""
        testnet := options.testnet.getD false
        baseUrl := options.baseUrl.getD DEFAULT_BASE_URL }

/-- Asset of types.ts. -/
structure Asset where
  nid : String
  filename : String
  mimeType : String
  caption : Option String := none
  headline : Option String := none
deriving Repr, DecidableEq

/-- Model of toAsset (client.ts): field-by-field response mapping. -/
def toAsset (response : AssetApiResponse) : Asset :=
  { nid := response.id
    filename := response.asset_file_name
    mimeType := response.asset_file_mime_type
    caption := response.caption
    headline := response.headline }

/-- Commit of types.ts. -/
structure Commit where
  assetTreeCid : String
  txHash : String
  author : String
  committer : String
  timestamp : Int
  action : String
deriving Repr, DecidableEq

/-- The per-commit mapping done by getHistory: timestampCreated becomes
timestamp, the other fields pass through. -/
def toCommit (c : CommitApiResponse) : Commit :=
  { assetTreeCid := c.assetTreeCid
    txHash := c.txHash
    author := c.author
    committer := c.committer
    timestamp := c.timestampCreated
    action := c.action }

/-! ## Registration and update workflows -/

/-- A text field appended only when the optional value is truthy, the
JavaScript pattern if (v) formData.append(name, v). -/
def truthyTextField (name : String) (v : Option String) : List FormField :=
  match v with
  | some s => if s = "" then [] else [FormField.text name s]
  | none => []

/-- The headline read from the optional options argument. -/
def optHeadline (options : Option RegisterOptions) : Option String :=
  options.bind (fun o => o.headline)

/-- The signature-related form fields appended by register when a signing
key is supplied: the proof over the asset bytes is serialized into
signed_metadata, and a one-element array holding the signature record is
serialized into signature. -/
def signFields (env : SdkEnv) (content : List Nat) (mimeType : String)
    (privateKey : String) : List FormField :=
  let proofHash := env.crypto.sha256hex content
  let proof := createIntegrityProof proofHash mimeType env.now
  let sg := signIntegrityProof env.crypto proof privateKey
  [FormField.text "signed_metadata" (serializeIntegrityProof proof),
   FormField.text "signature" ("[" ++ serializeAssetSignature sg ++ "]")]

/-- The full multipart body built by register from the normalized file and
the options, in append order. -/
def registerForm (env : SdkEnv) (nf : NormalizedFile)
    (options : Option RegisterOptions) : List FormField :=
  [FormField.fileEntry "asset_file" nf.data.content nf.mimeType nf.filename]
    ++ truthyTextField "caption" (options.bind (fun o => o.caption))
    ++ truthyTextField "headline" (optHeadline options)
    ++ [FormField.text "public_access"
        (if (options.bind (fun o => o.publicAccess)).getD true
          then "true" else "false")]
    ++ (match options.bind (fun o => o.sign) with
        | some s =>
          if s.privateKey = "" then []
          else signFields env nf.data.content nf.mimeType s.privateKey
        | none => [])

/-- Model of Capture.register (client.ts lines 305 to 355), returning the
result together with the trace of network calls made. Order of effects:
headline length check, file normalization, empty-file check, form
construction (with optional signing), then the single POST; the response
is mapped through toAsset and a non-ok status goes through createApiError
with no nid. -/
def register (env : SdkEnv) (client : Capture) (file : FileInput)
    (options : Option RegisterOptions) :
    Except CaptureError Asset × List ApiCall :=
  if truthyStr (optHeadline options)
      && decide (((optHeadline options).getD "").length > 25) then
    (Except.error (validationError "headline must be 25 characters or less"),
      [])
  else
    match normalizeFile env.node file options with
    | Except.error e => (Except.error e, [])
    | Except.ok nf =>
      if nf.data.content.length = 0 then
        (Except.error (validationError "file cannot be empty"), [])
      else
        let call := ApiCall.assetsPost (client.baseUrl ++ "/assets/")
          (registerForm env nf options)
        match env.assetResponse call with
        | FetchOutcome.ok r => (Except.ok (toAsset r), [call])
        | FetchOutcome.fail s m =>
          (Except.error (createApiError s m none), [call])

/-- JSON.stringify of the customMetadata record, in key insertion order. -/
def jsonOfRecord (m : List (String × String)) : String :=
  "\x7b" ++ String.intercalate ","
    (m.map (fun kv => jsonStr kv.1 ++ ":" ++ jsonStr kv.2)) ++ "\x7d"

/-- The multipart body built by update: caption and headline are appended
whenever they are not undefined (an explicit empty string is appended),
commit_message only when truthy, nit_commit_custom whenever the record is
present, serialized to JSON text. -/
def updateForm (options : UpdateOptions) : List FormField :=
  (match options.caption with
    | some c => [FormField.text "caption" c]
    | none => [])
    ++ (match options.headline with
        | some h => [FormField.text "headline" h]
        | none => [])
    ++ (match options.commitMessage with
        | some m => if m = "" then [] else [FormField.text "commit_message" m]
        | none => [])
    ++ (match options.customMetadata with
        | some m => [FormField.text "nit_commit_custom" (jsonOfRecord m)]
        | none => [])

/-- Spec-side body for update, stated from the words of the specification
for comparison with updateForm: the body holds exactly the fields
explicitly present in the options, commitMessage included whenever it is
present. -/
def updateFormSpec (options : UpdateOptions) : List FormField :=
  (match options.caption with
    | some c => [FormField.text "caption" c]
    | none => [])
    ++ (match options.headline with
        | some h => [FormField.text "headline" h]
        | none => [])
    ++ (match options.commitMessage with
        | some m => [FormField.text "commit_message" m]
        | none => [])
    ++ (match options.customMetadata with
        | some m => [FormField.text "nit_commit_custom" (jsonOfRecord m)]
        | none => [])

/-- The headline validation shared by register and update, as a predicate:
passes unless the headline is truthy and longer than 25 characters. -/
def headlineOk (headline : Option String) : Bool :=
  !(truthyStr headline && decide ((headline.getD "").length > 25))

/-- Model of Capture.update (client.ts lines 372 to 404): empty-nid check,
headline length check, body construction via updateForm, one PATCH to the
per-asset URL carrying the nid for error reporting, response mapped
through toAsset. -/
def update (env : SdkEnv) (client : Capture) (nid : String)
    (options : UpdateOptions) : Except CaptureError Asset × List ApiCall :=
  if nid = "" then
    (Except.error (validationError "nid is required"), [])
  else if truthyStr options.headline
      && decide (((options.headline).getD "").length > 25) then
    (Except.error (validationError "headline must be 25 characters or less"),
      [])
  else
    let call := ApiCall.assetsPatch
      (client.baseUrl ++ "/assets/" ++ nid ++ "/") (updateForm options)
    match env.assetResponse call with
    | FetchOutcome.ok r => (Except.ok (toAsset r), [call])
    | FetchOutcome.fail s m =>
      (Except.error (createApiError s m (some nid)), [call])

/-! ## History and tree-merge workflow -/

/-- Model of Capture.getHistory (client.ts lines 450 to 483): empty-nid
check, one GET against the history service with the nid and the testnet
flag, a non-ok status mapped through createApiError with the fixed message
and the nid, and each returned commit mapped through toCommit. -/
def getHistory (env : SdkEnv) (client : Capture) (nid : String) :
    Except CaptureError (List Commit) × List ApiCall :=
  if nid = "" then
    (Except.error (validationError "nid is required"), [])
  else
    match env.historyResponse nid client.testnet with
    | FetchOutcome.fail s _ =>
      (Except.error (createApiError s "Failed to fetch asset history"
        (some nid)), [ApiCall.history nid client.testnet])
    | FetchOutcome.ok resp =>
      (Except.ok (resp.commits.map toCommit),
        [ApiCall.history nid client.testnet])

/-- Projection of a raw history commit to the merge request entry. -/
def projRaw (c : CommitApiResponse) : CommitData :=
  ⟨c.assetTreeCid, c.timestampCreated⟩

/-- Model of Capture.getAssetTree (client.ts lines 499 to 535): empty-nid
check, then the history workflow; zero commits raise the NO_COMMITS
domain error without touching the merge service; otherwise each commit is
projected to its assetTreeCid and creation timestamp and the list is
posted to the merge service, whose response is unwrapped to its
mergedAssetTree field when present, else taken whole. -/
def getAssetTree (env : SdkEnv) (client : Capture) (nid : String) :
    Except CaptureError AssetTree × List ApiCall :=
  if nid = "" then
    (Except.error (validationError "nid is required"), [])
  else
    match getHistory env client nid with
    | (Except.error e, calls) => (Except.error e, calls)
    | (Except.ok commits, calls) =>
      if commits.length = 0 then
        (Except.error noCommitsError, calls)
      else
        let commitData := commits.map
          (fun c => (⟨c.assetTreeCid, c.timestamp⟩ : CommitData))
        match env.mergeResponse commitData with
        | FetchOutcome.fail s _ =>
          (Except.error (createApiError s "Failed to merge asset trees"
            (some nid)), calls ++ [ApiCall.merge commitData])
        | FetchOutcome.ok resp =>
          (Except.ok (resp.mergedAssetTree.getD resp.whole),
            calls ++ [ApiCall.merge commitData])

/-! ## Search workflow -/

/-- AssetSearchOptions of types.ts; the two numeric options are JavaScript
numbers, modeled as rationals. -/
structure AssetSearchOptions where
  fileUrl : Option String := none
  file : Option FileInput := none
  nid : Option String := none
  threshold : Option Rat := none
  sampleCount : Option Rat := none

/-- The threshold validation of searchAsset: passes when absent or inside
the closed interval from 0 to 1. -/
def thresholdValid (options : AssetSearchOptions) : Bool :=
  match options.threshold with
  | none => true
  | some t => !(decide (t < 0) || decide (1 < t))

/-- The sampleCount validation of searchAsset: passes when absent or a
positive integer (Number.isInteger is denominator one here). -/
def sampleCountValid (options : AssetSearchOptions) : Bool :=
  match options.sampleCount with
  | none => true
  | some s => !(decide (s < 1) || !(s.den == 1))

/-- The source form field chosen by searchAsset, in the priority order of
its if-else chain: fileUrl, then nid, then file (normalized with no
options, so anonymous binary inputs fail their required-filename check
here). The impossible all-falsy case appends nothing, mirroring the
JavaScript chain having no else branch. -/
def searchSourceFields (env : SdkEnv) (options : AssetSearchOptions) :
    Except CaptureError (List FormField) :=
  if truthyStr options.fileUrl then
    Except.ok [FormField.text "url" (options.fileUrl.getD "")]
  else if truthyStr options.nid then
    Except.ok [FormField.text "nid" (options.nid.getD "")]
  else if truthyFile options.file then
    match normalizeFile env.node (options.file.getD (FileInput.path ""))
        none with
    | Except.error e => Except.error e
    | Except.ok nf =>
      Except.ok [FormField.fileEntry "file" nf.data.content nf.mimeType
        nf.filename]
  else
    Except.ok []

/-- The optional numeric form fields appended after the source field. -/
def searchParamFields (options : AssetSearchOptions) : List FormField :=
  (match options.threshold with
    | some t => [FormField.text "threshold" (toString t)]
    | none => [])
    ++ (match options.sampleCount with
        | some s => [FormField.text "sample_count" (toString s)]
        | none => [])

/-- Model of Capture.searchAsset (client.ts lines 559 to 642): requires at
least one truthy source, validates threshold and sampleCount, builds the
multipart body (source field first, then the numeric parameters), makes
one POST to the search service, and maps the response with empty-string
defaults for absent fields. -/
def searchAsset (env : SdkEnv) (client : Capture)
    (options : AssetSearchOptions) :
    Except CaptureError AssetSearchResult × List ApiCall :=
  if !(truthyStr options.fileUrl || truthyFile options.file
      || truthyStr options.nid) then
    (Except.error (validationError
      "Must provide fileUrl, file, or nid for asset search"), [])
  else if !thresholdValid options then
    (Except.error (validationError "threshold must be between 0 and 1"), [])
  else if !sampleCountValid options then
    (Except.error (validationError "sampleCount must be a positive integer"),
      [])
  else
    match searchSourceFields env options with
    | Except.error e => (Except.error e, [])
    | Except.ok sourceFields =>
      let form := sourceFields ++ searchParamFields options
      match env.searchResponse form with
      | FetchOutcome.fail s m =>
        (Except.error (createApiError s m none), [ApiCall.search form])
      | FetchOutcome.ok r =>
        (Except.ok
          { preciseMatch := r.precise_match.getD ""
            inputFileMimeType := r.input_file_mime_type.getD ""
            similarMatches := r.similar_matches.getD []
            orderId := r.order_id.getD "" },
          [ApiCall.search form])

/-- The form carried by a trace consisting of exactly one search call,
used to state which source field the search posted. -/
def searchCallForm : List ApiCall → List FormField
  | [ApiCall.search form] => form
  | _ => []

/-! ## Concrete fixtures used to instantiate the theorems -/

/-- A concrete crypto primitive record for instantiations. -/
def cryptoW : CryptoPrims :=
  { sha256hex := fun bs => "sha" ++ toString bs.length
    signMessage := fun key msg => "sig:" ++ key ++ ":" ++ msg
    addressOf := fun key => "addr:" ++ key }

/-- A concrete Node environment whose file system returns three bytes for
every path. -/
def nodeW : NodeEnv := { isNode := true, readFile := fun _ => [9, 9, 9] }

/-- A canned successful asset response. -/
def respW : AssetApiResponse :=
  { id := "X", asset_file_name := "a.png", asset_file_mime_type := "image/png" }

/-- A canned raw history commit. -/
def commitW : CommitApiResponse :=
  { assetTreeCid := "cid1", txHash := "tx1", author := "au"
    committer := "co", timestampCreated := 5, action := "register" }

/-- A concrete environment whose history service returns one commit. -/
def envW : SdkEnv :=
  { node := nodeW
    crypto := cryptoW
    now := 0
    assetResponse := fun _ => FetchOutcome.ok respW
    historyResponse := fun _ _ => FetchOutcome.ok ⟨"n", [commitW]⟩
    mergeResponse := fun _ => FetchOutcome.ok ⟨none, ⟨[]⟩⟩
    searchResponse := fun _ => FetchOutcome.ok {} }

/-- The same environment with a history service returning zero commits. -/
def envNoCommits : SdkEnv :=
  { envW with historyResponse := fun _ _ => FetchOutcome.ok ⟨"n", []⟩ }

/-- A concrete client instance. -/
def clientW : Capture :=
  { token := "tok", baseUrl := DEFAULT_BASE_URL, testnet := false }

/-! ## Claim theorems -/

/-- Claim C2: createApiError maps 400 to ValidationError, or to
InsufficientFundsError when the lower-cased message contains the substring
insufficient; 401 to AuthenticationError; 403 to PermissionError; 404 to
NotFoundError carrying the nid in its message when known; and every other
status to NetworkError carrying that status code. -/
theorem createApiError_status_mapping :
    (∀ msg nid, strContains (toLowerCase msg) "insufficient" = false →
      createApiError 400 msg nid = validationError msg)
    ∧ (∀ msg nid, strContains (toLowerCase msg) "insufficient" = true →
      createApiError 400 msg nid = insufficientFundsError msg)
    ∧ (∀ msg nid, createApiError 401 msg nid = authenticationError msg)
    ∧ (∀ msg nid, createApiError 403 msg nid = permissionError msg)
    ∧ (∀ msg nid, createApiError 404 msg nid = notFoundError nid)
    ∧ (∀ msg n, (createApiError 404 msg (some n)).message
        = "Asset not found: " ++ n)
    ∧ (∀ s msg nid, s ≠ 400 → s ≠ 401 → s ≠ 403 → s ≠ 404 →
      createApiError s msg nid = networkError msg (some s)) := by
  refine ⟨?_, ?_, ?_, ?_, ?_, ?_, ?_⟩
  · intro msg nid h
    simp [createApiError, h]
  · intro msg nid h
    simp [createApiError, h]
  · intro msg nid
    simp [createApiError]
  · intro msg nid
    simp [createApiError]
  · intro msg nid
    simp [createApiError]
  · intro msg n
    simp [createApiError, notFoundError]
  · intro s msg nid h400 h401 h403 h404
    simp [createApiError, h400, h401, h403, h404]

/-- Witness for C2: the mapping evaluated at concrete statuses and
messages, 500 included. -/
theorem createApiError_status_mapping_witness :
    createApiError 400 "bad field" none = validationError "bad field"
    ∧ createApiError 400 "Insufficient NUM balance" none
      = insufficientFundsError "Insufficient NUM balance"
    ∧ createApiError 401 "no" none = authenticationError "no"
    ∧ createApiError 403 "no" none = permissionError "no"
    ∧ createApiError 404 "gone" (some "nid1") = notFoundError (some "nid1")
    ∧ (createApiError 404 "gone" (some "nid1")).message
      = "Asset not found: nid1"
    ∧ createApiError 500 "boom" none = networkError "boom" (some 500) :=
  ⟨createApiError_status_mapping.1 "bad field" none (by decide),
   createApiError_status_mapping.2.1 "Insufficient NUM balance" none
     (by decide),
   createApiError_status_mapping.2.2.1 "no" none,
   createApiError_status_mapping.2.2.2.1 "no" none,
   createApiError_status_mapping.2.2.2.2.1 "gone" (some "nid1"),
   createApiError_status_mapping.2.2.2.2.2.1 "gone" "nid1",
   createApiError_status_mapping.2.2.2.2.2.2 500 "boom" none
     (by decide) (by decide) (by decide) (by decide)⟩

/-- Counterexample for C6: the claim demands application/octet-stream
whenever the extension is missing, but for the dotless filename png the
resolver returns image/png, because split always yields the whole filename
as its last segment; the spec-side resolver getMimeTypeSpec returns the
default there. -/
theorem getMimeType_counterexample :
    getMimeType "png" = "image/png"
    ∧ getMimeTypeSpec "png" = "application/octet-stream" := by
  constructor <;> rfl

/-- Claim C6 as amended: the resolver lower-cases the final dot-delimited
segment of the filename, which is the entire filename when no dot is
present, and looks it up in the fixed table with default
application/octet-stream; whenever the filename contains a dot this agrees
with the spec reading in which the extension is the part after the final
dot. The resolver is a total function with no failure mode by
construction. -/
theorem getMimeType_amended :
    ∀ filename : String,
      getMimeType filename
        = (MIME_TYPES.lookup
            (toLowerCase ((splitString '.' filename).getLastD ""))).getD
          "application/octet-stream"
      ∧ ((splitString '.' filename).length > 1 →
          getMimeType filename = getMimeTypeSpec filename) := by
  intro filename
  constructor
  · rfl
  · intro h
    simp only [getMimeType, getMimeTypeSpec]
    rw [if_neg (by omega)]

/-- Witness for C6: the amended statement evaluated at a filename with an
upper-case extension. -/
theorem getMimeType_amended_witness :
    getMimeType "photo.JPG"
      = (MIME_TYPES.lookup
          (toLowerCase ((splitString '.' "photo.JPG").getLastD ""))).getD
        "application/octet-stream"
    ∧ ((splitString '.' "photo.JPG").length > 1 →
        getMimeType "photo.JPG" = getMimeTypeSpec "photo.JPG") :=
  getMimeType_amended "photo.JPG"

/-- Claim C7: signIntegrityProof returns a record whose integritySha is
the SHA-256 hash of the UTF-8 bytes of the JSON-serialized proof (a
function of the proof record alone, never of the asset bytes, which the
function does not receive), whose signature is the personal-message
signature of that integritySha under the key, whose publicKey is the
address derived from the key, whose proofHash is the proof_hash of the
proof, and whose provider is the constant capture-sdk. -/
theorem signIntegrityProof_contract :
    ∀ (cp : CryptoPrims) (proof : IntegrityProof) (privateKey : String),
      (signIntegrityProof cp proof privateKey).integritySha
        = cp.sha256hex (utf8Bytes (serializeIntegrityProof proof))
      ∧ (signIntegrityProof cp proof privateKey).signature
        = cp.signMessage privateKey
          (cp.sha256hex (utf8Bytes (serializeIntegrityProof proof)))
      ∧ (signIntegrityProof cp proof privateKey).publicKey
        = cp.addressOf privateKey
      ∧ (signIntegrityProof cp proof privateKey).proofHash
        = proof.proof_hash
      ∧ (signIntegrityProof cp proof privateKey).provider = "capture-sdk" :=
  fun _ _ _ => ⟨rfl, rfl, rfl, rfl, rfl⟩

/-- Claim C10: constructing a client with a missing or empty token throws
ValidationError; a successfully constructed client holds exactly the
supplied nonempty token, the supplied base URL defaulted to
DEFAULT_BASE_URL, and the supplied testnet flag defaulted to false. The
client record is immutable in this embedding: every workflow takes it as a
pure read-only argument, so the invariant is preserved by construction. -/
theorem mkCapture_token_invariant :
    (∀ options : CaptureOptions,
      options.token = none ∨ options.token = some "" →
      mkCapture options = Except.error (validationError "token is required"))
    ∧ (∀ (options : CaptureOptions) (c : Capture),
      mkCapture options = Except.ok c →
      c.token ≠ ""
      ∧ options.token = some c.token
      ∧ c.baseUrl = options.baseUrl.getD DEFAULT_BASE_URL
      ∧ c.testnet = options.testnet.getD false) := by
  constructor
  · intro options h
    rcases h with h | h <;> simp [mkCapture, truthyStr, h]
  · intro options c h
    simp only [mkCapture] at h
    split at h
    · exact absurd h (by simp)
    · rename_i htok
      cases hopt : options.token with
      | none => rw [hopt] at htok; simp [truthyStr] at htok
      | some t =>
        rw [hopt] at htok
        simp only [truthyStr, Bool.not_eq_true', decide_eq_false_iff_not,
          Decidable.not_not] at htok
        simp only [Except.ok.injEq] at h
        refine ⟨?_, ?_, ?_, ?_⟩
        · rw [← h]; simpa [hopt] using htok
        · rw [← h]; simp [hopt]
        · rw [← h]
        · rw [← h]

/-- Witness for C10: a missing token and an empty token are both rejected,
and a concrete construction with only a token set yields that token with
the default base URL and testnet flag. -/
theorem mkCapture_token_invariant_witness :
    mkCapture {} = Except.error (validationError "token is required")
    ∧ mkCapture { token := some "" }
      = Except.error (validationError "token is required")
    ∧ ("tok" ≠ ""
      ∧ (some "tok" : Option String) = some "tok"
      ∧ DEFAULT_BASE_URL = (none : Option String).getD DEFAULT_BASE_URL
      ∧ false = (none : Option Bool).getD false) :=
  ⟨mkCapture_token_invariant.1 {} (Or.inl rfl),
   mkCapture_token_invariant.1 { token := some "" } (Or.inr rfl),
   mkCapture_token_invariant.2 { token := some "tok" }
     { token := "tok", baseUrl := DEFAULT_BASE_URL, testnet := false } rfl⟩

/-- Counterexample for C1: for a Uint8Array input the code executes
data = input, so the returned bytes are the caller-owned buffer itself
(region 7 here), not a fresh copy; the claim says the result is never an
aliased view into caller-owned memory. -/
theorem normalizeFile_counterexample :
    normalizeFile nodeW (FileInput.uint8 7 [1, 2, 3])
        (some { filename := some "a.bin" })
      = Except.ok ⟨⟨[1, 2, 3], some 7⟩, "a.bin", "application/octet-stream"⟩
    ∧ (some 7 : Option Nat) ≠ none := by
  constructor
  · rfl
  · simp

/-- Claim C1 as amended: whenever normalizeFile succeeds, the returned
bytes are content-equal to the source bytes and the filename is the path
basename, the File name, or the caller-supplied filename option; the bytes
are a fresh, independently-owned copy for the path, File and Blob
variants, but for the Buffer and Uint8Array variants they alias exactly
the caller-owned input buffer (the copy is deferred to the point of use). -/
theorem normalizeFile_amended :
    ∀ (env : NodeEnv) (input : FileInput) (options : Option RegisterOptions)
      (nf : NormalizedFile),
      normalizeFile env input options = Except.ok nf →
      nf.data.content = sourceContent env input
      ∧ nf.data.sourceId = aliasOf input
      ∧ nf.filename = (match input with
          | FileInput.path p => basename p
          | FileInput.file name _ _ => name
          | _ => (optFilename options).getD "") := by
  intro env input options nf h
  cases input with
  | path p =>
    simp only [normalizeFile] at h
    split at h
    · exact absurd h (by simp)
    · simp only [Except.ok.injEq] at h
      rw [← h]
      exact ⟨rfl, rfl, rfl⟩
  | file name mime content =>
    simp only [normalizeFile, Except.ok.injEq] at h
    rw [← h]
    exact ⟨rfl, rfl, rfl⟩
  | blob mime content =>
    simp only [normalizeFile] at h
    split at h
    · exact absurd h (by simp)
    · simp only [Except.ok.injEq] at h
      rw [← h]
      exact ⟨rfl, rfl, rfl⟩
  | buffer bufId content =>
    simp only [normalizeFile] at h
    split at h
    · exact absurd h (by simp)
    · simp only [Except.ok.injEq] at h
      rw [← h]
      exact ⟨rfl, rfl, rfl⟩
  | uint8 bufId content =>
    simp only [normalizeFile] at h
    split at h
    · exact absurd h (by simp)
    · simp only [Except.ok.injEq] at h
      rw [← h]
      exact ⟨rfl, rfl, rfl⟩

/-- Witness for C1: the amended statement instantiated at a path input
(fresh copy of the file-system bytes, basename of the path) and discharged
by computation. -/
theorem normalizeFile_amended_witness :
    (⟨⟨[9, 9, 9], none⟩, "a.png", "image/png"⟩ : NormalizedFile).data.content
      = sourceContent nodeW (FileInput.path "dir/a.png")
    ∧ (⟨⟨[9, 9, 9], none⟩, "a.png", "image/png"⟩
        : NormalizedFile).data.sourceId = aliasOf (FileInput.path "dir/a.png")
    ∧ (⟨⟨[9, 9, 9], none⟩, "a.png", "image/png"⟩ : NormalizedFile).filename
      = basename "dir/a.png" :=
  normalizeFile_amended nodeW (FileInput.path "dir/a.png") none
    ⟨⟨[9, 9, 9], none⟩, "a.png", "image/png"⟩ (by rfl)

/-- Claim C3: register rejects a truthy headline longer than 25 characters
with ValidationError before any network call (the trace of calls is
empty), and rejects a normalized file with zero bytes with ValidationError
before any network call, whatever the environment, client, input and
remaining options. -/
theorem register_validates_before_network :
    (∀ (env : SdkEnv) (client : Capture) (file : FileInput)
      (options : Option RegisterOptions) (h : String),
      optHeadline options = some h → h.length > 25 →
      register env client file options
        = (Except.error
            (validationError "headline must be 25 characters or less"), []))
    ∧ (∀ (env : SdkEnv) (client : Capture) (file : FileInput)
      (options : Option RegisterOptions) (nf : NormalizedFile),
      normalizeFile env.node file options = Except.ok nf →
      nf.data.content = [] →
      isValidationErr (register env client file options).1 = true
      ∧ (register env client file options).2 = []) := by
  constructor
  · intro env client file options h hopt hlen
    have htr : truthyStr (optHeadline options) = true := by
      rw [hopt]
      simp only [truthyStr, decide_eq_true_eq]
      intro he
      rw [he] at hlen
      simp at hlen
    have hd : decide (((optHeadline options).getD "").length > 25) = true := by
      rw [hopt]
      simpa using hlen
    simp only [register, htr, hd, Bool.and_self, if_true]
  · intro env client file options nf hnorm hempty
    by_cases hhead : (truthyStr (optHeadline options)
        && decide (((optHeadline options).getD "").length > 25)) = true
    · simp only [register, hhead, if_true]
      simp [isValidationErr, validationError]
    · rw [Bool.not_eq_true] at hhead
      simp only [register, hhead, Bool.false_eq_true, if_false, hnorm]
      rw [hempty]
      simp [isValidationErr, validationError]

/-- Witness for C3: a length-26 headline is rejected with an empty trace,
and a zero-byte Uint8Array input is rejected with an empty trace. -/
theorem register_validates_before_network_witness :
    register envW clientW (FileInput.uint8 0 [])
        (some { headline := some "abcdefghijklmnopqrstuvwxyz" })
      = (Except.error
          (validationError "headline must be 25 characters or less"), [])
    ∧ (isValidationErr (register envW clientW (FileInput.uint8 0 [])
        (some { filename := some "a.bin" })).1 = true
      ∧ (register envW clientW (FileInput.uint8 0 [])
          (some { filename := some "a.bin" })).2 = []) :=
  ⟨register_validates_before_network.1 envW clientW (FileInput.uint8 0 [])
      (some { headline := some "abcdefghijklmnopqrstuvwxyz" })
      "abcdefghijklmnopqrstuvwxyz" rfl (by decide),
   register_validates_before_network.2 envW clientW (FileInput.uint8 0 [])
      (some { filename := some "a.bin" })
      ⟨⟨[], some 0⟩, "a.bin", "application/octet-stream"⟩ (by rfl) rfl⟩

/-- Claim C4: for a nonempty nid whose history response holds a nonempty
commit list, getAssetTree produces a trace with the history call strictly
first and the merge call second, and the merge request body is exactly the
history commits projected to assetTreeCid and timestampCreated, in the
response order. -/
theorem getAssetTree_history_before_merge :
    ∀ (env : SdkEnv) (client : Capture) (nid : String)
      (resp : HistoryApiResponse),
      nid ≠ "" →
      env.historyResponse nid client.testnet = FetchOutcome.ok resp →
      resp.commits ≠ [] →
      (getAssetTree env client nid).2
        = [ApiCall.history nid client.testnet,
           ApiCall.merge (resp.commits.map projRaw)] := by
  intro env client nid resp hnid hresp hne
  have hproj : (resp.commits.map toCommit).map
      (fun c => (⟨c.assetTreeCid, c.timestamp⟩ : CommitData))
      = resp.commits.map projRaw := by
    rw [List.map_map]
    rfl
  have hlen : ¬(resp.commits.map toCommit).length = 0 := by
    simp [List.length_eq_zero, hne]
  simp only [getAssetTree, getHistory, if_neg hnid, hresp]
  rw [if_neg hlen, hproj]
  cases env.mergeResponse (resp.commits.map projRaw) <;> rfl

/-- Witness for C4: with a one-commit history response, the trace is the
history call followed by the merge call carrying the single projected
commit. -/
theorem getAssetTree_history_before_merge_witness :
    (getAssetTree envW clientW "nid1").2
      = [ApiCall.history "nid1" false,
         ApiCall.merge ([commitW].map projRaw)] :=
  getAssetTree_history_before_merge envW clientW "nid1" ⟨"n", [commitW]⟩
    (by decide) rfl (by simp)

/-- Claim C5: for a nonempty nid (an empty nid is rejected by validation
before the history service is consulted), if the history service returns
zero commits then getAssetTree fails with the NO_COMMITS domain error and
the merge endpoint is never called: the trace holds the history call
only. -/
theorem getAssetTree_no_commits :
    ∀ (env : SdkEnv) (client : Capture) (nid : String)
      (resp : HistoryApiResponse),
      nid ≠ "" →
      env.historyResponse nid client.testnet = FetchOutcome.ok resp →
      resp.commits = [] →
      getAssetTree env client nid
        = (Except.error noCommitsError,
           [ApiCall.history nid client.testnet]) := by
  intro env client nid resp hnid hresp hempty
  simp [getAssetTree, getHistory, hnid, hresp, hempty]

/-- Witness for C5: against the zero-commit environment, getAssetTree for
a concrete nid returns the NO_COMMITS error and a trace holding only the
history call. -/
theorem getAssetTree_no_commits_witness :
    getAssetTree envNoCommits clientW "nid1"
      = (Except.error noCommitsError, [ApiCall.history "nid1" false]) :=
  getAssetTree_no_commits envNoCommits clientW "nid1" ⟨"n", []⟩
    (by decide) rfl rfl

/-- Characterization of membership in the update body: a field occurs
exactly when its option is present, with commit_message additionally
requiring a nonempty (truthy) value. -/
theorem mem_updateForm (opts : UpdateOptions) (f : FormField) :
    f ∈ updateForm opts ↔
      (∃ c, opts.caption = some c ∧ f = FormField.text "caption" c)
      ∨ (∃ h, opts.headline = some h ∧ f = FormField.text "headline" h)
      ∨ (∃ m, opts.commitMessage = some m ∧ m ≠ ""
          ∧ f = FormField.text "commit_message" m)
      ∨ (∃ r, opts.customMetadata = some r
          ∧ f = FormField.text "nit_commit_custom" (jsonOfRecord r)) := by
  rcases opts with ⟨c, h, m, cm⟩
  have hm : f ∈ (match m with
      | some x => if x = "" then [] else [FormField.text "commit_message" x]
      | none => ([] : List FormField)) ↔
      (∃ x, m = some x ∧ x ≠ "" ∧ f = FormField.text "commit_message" x) := by
    cases m with
    | none => simp
    | some a =>
      by_cases ha : a = "" <;> simp [ha]
  simp only [updateForm, List.mem_append, hm]
  cases c <;> cases h <;> cases cm <;> simp [or_assoc]

/-- Counterexample for C9: with options whose commitMessage is explicitly
present as the empty string, the code builds an empty body (the truthiness
guard skips the field), while the claim demands a body holding exactly the
explicitly present fields, here the commit_message field; updateFormSpec
is that claimed body. -/
theorem update_counterexample :
    updateForm { commitMessage := some "" } = []
    ∧ updateFormSpec { commitMessage := some "" }
      = [FormField.text "commit_message" ""] := by
  constructor <;> rfl

/-- Claim C9 as amended: update rejects an empty nid with ValidationError
before any call, applies the same headline check as register (rejecting a
truthy headline longer than 25 characters with an empty trace), and
otherwise makes exactly one PATCH to the per-asset URL whose body holds
the caption and headline fields exactly when those options are present
(empty strings included), the commit_message field exactly when
commitMessage is present and nonempty, the nit_commit_custom field with
the JSON-serialized record exactly when customMetadata is present, and no
field with any other name; a successful response is mapped through
toAsset exactly as in register. -/
theorem update_amended :
    (∀ (env : SdkEnv) (client : Capture) (opts : UpdateOptions),
      update env client "" opts
        = (Except.error (validationError "nid is required"), []))
    ∧ (∀ (env : SdkEnv) (client : Capture) (nid : String)
        (opts : UpdateOptions) (h : String),
      nid ≠ "" → opts.headline = some h → h.length > 25 →
      update env client nid opts
        = (Except.error
            (validationError "headline must be 25 characters or less"), []))
    ∧ (∀ (env : SdkEnv) (client : Capture) (nid : String)
        (opts : UpdateOptions),
      nid ≠ "" → headlineOk opts.headline = true →
      (update env client nid opts).2
        = [ApiCall.assetsPatch (client.baseUrl ++ "/assets/" ++ nid ++ "/")
            (updateForm opts)])
    ∧ (∀ (opts : UpdateOptions) (v : String),
      FormField.text "caption" v ∈ updateForm opts ↔ opts.caption = some v)
    ∧ (∀ (opts : UpdateOptions) (v : String),
      FormField.text "headline" v ∈ updateForm opts ↔ opts.headline = some v)
    ∧ (∀ (opts : UpdateOptions) (v : String),
      FormField.text "commit_message" v ∈ updateForm opts ↔
        (opts.commitMessage = some v ∧ v ≠ ""))
    ∧ (∀ (opts : UpdateOptions) (v : String),
      FormField.text "nit_commit_custom" v ∈ updateForm opts ↔
        (∃ r, opts.customMetadata = some r ∧ v = jsonOfRecord r))
    ∧ (∀ (opts : UpdateOptions) (f : FormField), f ∈ updateForm opts →
      fieldName f
        ∈ ["caption", "headline", "commit_message", "nit_commit_custom"])
    ∧ (∀ (env : SdkEnv) (client : Capture) (nid : String)
        (opts : UpdateOptions) (r : AssetApiResponse),
      nid ≠ "" → headlineOk opts.headline = true →
      env.assetResponse
          (ApiCall.assetsPatch (client.baseUrl ++ "/assets/" ++ nid ++ "/")
            (updateForm opts)) = FetchOutcome.ok r →
      (update env client nid opts).1 = Except.ok (toAsset r)) := by
  refine ⟨?_, ?_, ?_, ?_, ?_, ?_, ?_, ?_, ?_⟩
  · intro env client opts
    rfl
  · intro env client nid opts h hnid hh hlen
    have ht : truthyStr opts.headline = true := by
      rw [hh]
      simp only [truthyStr, decide_eq_true_eq]
      intro he
      rw [he] at hlen
      simp at hlen
    have hd : decide ((opts.headline.getD "").length > 25) = true := by
      rw [hh]
      simpa using hlen
    simp only [update, if_neg hnid, ht, hd, Bool.and_self, if_true]
  · intro env client nid opts hnid hok
    rw [headlineOk, Bool.not_eq_true'] at hok
    simp only [update, if_neg hnid, hok, Bool.false_eq_true, if_false]
    split <;> rfl
  · intro opts v
    rw [mem_updateForm]
    constructor
    · rintro (⟨c, hc, hf⟩ | ⟨h1, hh, hf⟩ | ⟨m1, hm1, hne, hf⟩ | ⟨r, hr, hf⟩)
      · cases hf
        exact hc
      · exact absurd hf (by simp)
      · exact absurd hf (by simp)
      · exact absurd hf (by simp)
    · intro hc
      exact Or.inl ⟨v, hc, rfl⟩
  · intro opts v
    rw [mem_updateForm]
    constructor
    · rintro (⟨c, hc, hf⟩ | ⟨h1, hh, hf⟩ | ⟨m1, hm1, hne, hf⟩ | ⟨r, hr, hf⟩)
      · exact absurd hf (by simp)
      · cases hf
        exact hh
      · exact absurd hf (by simp)
      · exact absurd hf (by simp)
    · intro hh
      exact Or.inr (Or.inl ⟨v, hh, rfl⟩)
  · intro opts v
    rw [mem_updateForm]
    constructor
    · rintro (⟨c, hc, hf⟩ | ⟨h1, hh, hf⟩ | ⟨m1, hm1, hne, hf⟩ | ⟨r, hr, hf⟩)
      · exact absurd hf (by simp)
      · exact absurd hf (by simp)
      · cases hf
        exact ⟨hm1, hne⟩
      · exact absurd hf (by simp)
    · rintro ⟨hm1, hne⟩
      exact Or.inr (Or.inr (Or.inl ⟨v, hm1, hne, rfl⟩))
  · intro opts v
    rw [mem_updateForm]
    constructor
    · rintro (⟨c, hc, hf⟩ | ⟨h1, hh, hf⟩ | ⟨m1, hm1, hne, hf⟩ | ⟨r, hr, hf⟩)
      · exact absurd hf (by simp)
      · exact absurd hf (by simp)
      · exact absurd hf (by simp)
      · simp only [FormField.text.injEq] at hf
        exact ⟨r, hr, hf.2⟩
    · rintro ⟨r, hr, rfl⟩
      exact Or.inr (Or.inr (Or.inr ⟨r, hr, rfl⟩))
  · intro opts f hf
    rw [mem_updateForm] at hf
    rcases hf with ⟨c, _, rfl⟩ | ⟨h1, _, rfl⟩ | ⟨m1, _, _, rfl⟩ | ⟨r, _, rfl⟩
      <;> simp [fieldName]
  · intro env client nid opts r hnid hok hresp
    rw [headlineOk, Bool.not_eq_true'] at hok
    simp only [update, if_neg hnid, hok, Bool.false_eq_true, if_false, hresp]

/-- Witness for C9: the amended statement instantiated concretely: an
empty nid is rejected; a 26-character headline is rejected; with a caption
and an empty commitMessage the trace is one PATCH whose body holds the
caption field, whose membership facts are checked, and whose canned
response maps to the expected Asset. -/
theorem update_amended_witness :
    update envW clientW "" { caption := some "x" }
      = (Except.error (validationError "nid is required"), [])
    ∧ update envW clientW "nid1"
        { headline := some "abcdefghijklmnopqrstuvwxyz" }
      = (Except.error
          (validationError "headline must be 25 characters or less"), [])
    ∧ (update envW clientW "nid1"
        { caption := some "x", commitMessage := some "" }).2
      = [ApiCall.assetsPatch (clientW.baseUrl ++ "/assets/" ++ "nid1" ++ "/")
          (updateForm { caption := some "x", commitMessage := some "" })]
    ∧ (FormField.text "caption" "x"
        ∈ updateForm { caption := some "x", commitMessage := some "" } ↔
        ({ caption := some "x", commitMessage := some "" }
          : UpdateOptions).caption = some "x")
    ∧ (FormField.text "commit_message" ""
        ∈ updateForm { caption := some "x", commitMessage := some "" } ↔
        (({ caption := some "x", commitMessage := some "" }
          : UpdateOptions).commitMessage = some "" ∧ ("" : String) ≠ ""))
    ∧ (update envW clientW "nid1"
        { caption := some "x", commitMessage := some "" }).1
      = Except.ok (toAsset respW) :=
  ⟨update_amended.1 envW clientW { caption := some "x" },
   update_amended.2.1 envW clientW "nid1"
     { headline := some "abcdefghijklmnopqrstuvwxyz" }
     "abcdefghijklmnopqrstuvwxyz" (by decide) rfl (by decide),
   update_amended.2.2.1 envW clientW "nid1"
     { caption := some "x", commitMessage := some "" } (by decide) (by decide),
   update_amended.2.2.2.1 { caption := some "x", commitMessage := some "" }
     "x",
   update_amended.2.2.2.2.2.1
     { caption := some "x", commitMessage := some "" } "",
   update_amended.2.2.2.2.2.2.2.2 envW clientW "nid1"
     { caption := some "x", commitMessage := some "" } respW (by decide)
     (by decide) rfl⟩

/-- Every optional-parameter form field of searchAsset is named threshold
or sample_count. -/
theorem mem_searchParamFields (o : AssetSearchOptions) (f : FormField) :
    f ∈ searchParamFields o →
    fieldName f = "threshold" ∨ fieldName f = "sample_count" := by
  intro hf
  rcases o with ⟨fu, fl, ni, th, sc⟩
  simp only [searchParamFields, List.mem_append] at hf
  rcases hf with hf | hf
  · cases th with
    | none => simp at hf
    | some t =>
      simp only [List.mem_singleton] at hf
      rw [hf]
      exact Or.inl rfl
  · cases sc with
    | none => simp at hf
    | some s =>
      simp only [List.mem_singleton] at hf
      rw [hf]
      exact Or.inr rfl

/-- Claim C8: searchAsset rejects the absence of all three sources with
ValidationError and an empty trace; it does not reject combinations of
sources, taking the first in priority order fileUrl, then nid, then file
as the single posted source field; and an out-of-range threshold or a
non-positive-integer sampleCount is rejected with ValidationError before
any network call. -/
theorem searchAsset_validation_and_priority :
    (∀ (env : SdkEnv) (client : Capture) (o : AssetSearchOptions),
      truthyStr o.fileUrl = false → truthyFile o.file = false →
      truthyStr o.nid = false →
      searchAsset env client o
        = (Except.error (validationError
            "Must provide fileUrl, file, or nid for asset search"), []))
    ∧ (∀ (env : SdkEnv) (client : Capture) (o : AssetSearchOptions)
        (u : String),
      o.fileUrl = some u → u ≠ "" →
      thresholdValid o = true → sampleCountValid o = true →
      (searchCallForm (searchAsset env client o).2).head?
        = some (FormField.text "url" u)
      ∧ (searchCallForm (searchAsset env client o).2).all
          (fun f => fieldName f != "nid" && fieldName f != "file") = true)
    ∧ (∀ (env : SdkEnv) (client : Capture) (o : AssetSearchOptions)
        (n : String),
      truthyStr o.fileUrl = false → o.nid = some n → n ≠ "" →
      thresholdValid o = true → sampleCountValid o = true →
      (searchCallForm (searchAsset env client o).2).head?
        = some (FormField.text "nid" n)
      ∧ (searchCallForm (searchAsset env client o).2).all
          (fun f => fieldName f != "url" && fieldName f != "file") = true)
    ∧ (∀ (env : SdkEnv) (client : Capture) (o : AssetSearchOptions)
        (t : Rat),
      o.threshold = some t → t < 0 ∨ 1 < t →
      isValidationErr (searchAsset env client o).1 = true
      ∧ (searchAsset env client o).2 = [])
    ∧ (∀ (env : SdkEnv) (client : Capture) (o : AssetSearchOptions)
        (s : Rat),
      o.sampleCount = some s → s < 1 ∨ ¬s.den = 1 →
      isValidationErr (searchAsset env client o).1 = true
      ∧ (searchAsset env client o).2 = []) := by
  refine ⟨?_, ?_, ?_, ?_, ?_⟩
  · intro env client o h1 h2 h3
    simp [searchAsset, h1, h2, h3]
  · intro env client o u hu hune hth hsc
    have hsrc : truthyStr o.fileUrl = true := by
      rw [hu]
      simpa [truthyStr] using hune
    have hcond : (truthyStr o.fileUrl || truthyFile o.file
        || truthyStr o.nid) = true := by
      simp [hsrc]
    have hsf : searchSourceFields env o
        = Except.ok [FormField.text "url" u] := by
      have hgd : o.fileUrl.getD "" = u := by
        rw [hu]
        rfl
      simp [searchSourceFields, hsrc, hgd]
    have htrace : (searchAsset env client o).2
        = [ApiCall.search ([FormField.text "url" u]
            ++ searchParamFields o)] := by
      simp only [searchAsset, hcond, hth, hsc, Bool.not_true,
        Bool.false_eq_true, if_false, hsf]
      split <;> rfl
    rw [htrace]
    constructor
    · rfl
    · have h2 : (searchParamFields o).all
          (fun f => fieldName f != "nid" && fieldName f != "file") = true := by
        rw [List.all_eq_true]
        intro f hf
        rcases mem_searchParamFields o f hf with h | h <;> simp [h]
      simp only [searchCallForm, List.singleton_append, List.all_cons, h2]
      simp [fieldName]
  · intro env client o n hfu hn hnne hth hsc
    have hsrc : truthyStr o.nid = true := by
      rw [hn]
      simpa [truthyStr] using hnne
    have hcond : (truthyStr o.fileUrl || truthyFile o.file
        || truthyStr o.nid) = true := by
      simp [hsrc]
    have hsf : searchSourceFields env o
        = Except.ok [FormField.text "nid" n] := by
      have hgd : o.nid.getD "" = n := by
        rw [hn]
        rfl
      simp [searchSourceFields, hfu, hsrc, hgd]
    have htrace : (searchAsset env client o).2
        = [ApiCall.search ([FormField.text "nid" n]
            ++ searchParamFields o)] := by
      simp only [searchAsset, hcond, hth, hsc, Bool.not_true,
        Bool.false_eq_true, if_false, hsf]
      split <;> rfl
    rw [htrace]
    constructor
    · rfl
    · have h2 : (searchParamFields o).all
          (fun f => fieldName f != "url" && fieldName f != "file") = true := by
        rw [List.all_eq_true]
        intro f hf
        rcases mem_searchParamFields o f hf with h | h <;> simp [h]
      simp only [searchCallForm, List.singleton_append, List.all_cons, h2]
      simp [fieldName]
  · intro env client o t hth hrange
    have hv : thresholdValid o = false := by
      simp only [thresholdValid, hth]
      rcases hrange with h | h <;> simp [h]
    by_cases hsrc : (truthyStr o.fileUrl || truthyFile o.file
        || truthyStr o.nid) = true
    · simp [searchAsset, hsrc, hv, isValidationErr, validationError]
    · rw [Bool.not_eq_true] at hsrc
      simp [searchAsset, hsrc, isValidationErr, validationError]
  · intro env client o s hsc hbad
    have hv : sampleCountValid o = false := by
      simp only [sampleCountValid, hsc]
      rcases hbad with h | h <;> simp [h]
    by_cases hsrc : (truthyStr o.fileUrl || truthyFile o.file
        || truthyStr o.nid) = true
    · by_cases hth : thresholdValid o = true
      · simp [searchAsset, hsrc, hth, hv, isValidationErr, validationError]
      · rw [Bool.not_eq_true] at hth
        simp [searchAsset, hsrc, hth, isValidationErr, validationError]
    · rw [Bool.not_eq_true] at hsrc
      simp [searchAsset, hsrc, isValidationErr, validationError]

/-- Witness for C8: no source given is rejected with an empty trace; with
both fileUrl and nid given the posted source field is the url; with nid
alone and threshold three halves the call is rejected as ValidationError
with an empty trace; with nid alone and sampleCount zero likewise. -/
theorem searchAsset_validation_and_priority_witness :
    searchAsset envW clientW {}
      = (Except.error (validationError
          "Must provide fileUrl, file, or nid for asset search"), [])
    ∧ ((searchCallForm (searchAsset envW clientW
          { fileUrl := some "http://u", nid := some "X" }).2).head?
        = some (FormField.text "url" "http://u")
      ∧ (searchCallForm (searchAsset envW clientW
          { fileUrl := some "http://u", nid := some "X" }).2).all
          (fun f => fieldName f != "nid" && fieldName f != "file") = true)
    ∧ ((searchCallForm (searchAsset envW clientW
          { nid := some "X", file := some (FileInput.uint8 1 [2]) }).2).head?
        = some (FormField.text "nid" "X")
      ∧ (searchCallForm (searchAsset envW clientW
          { nid := some "X", file := some (FileInput.uint8 1 [2]) }).2).all
          (fun f => fieldName f != "url" && fieldName f != "file") = true)
    ∧ (isValidationErr (searchAsset envW clientW
        { nid := some "X", threshold := some ((3 : Rat)/2) }).1 = true
      ∧ (searchAsset envW clientW
          { nid := some "X", threshold := some ((3 : Rat)/2) }).2 = [])
    ∧ (isValidationErr (searchAsset envW clientW
        { nid := some "X", sampleCount := some 0 }).1 = true
      ∧ (searchAsset envW clientW
          { nid := some "X", sampleCount := some 0 }).2 = []) :=
  ⟨searchAsset_validation_and_priority.1 envW clientW {} rfl rfl rfl,
   searchAsset_validation_and_priority.2.1 envW clientW
     { fileUrl := some "http://u", nid := some "X" } "http://u" rfl
     (by decide) rfl rfl,
   searchAsset_validation_and_priority.2.2.1 envW clientW
     { nid := some "X", file := some (FileInput.uint8 1 [2]) } "X" rfl rfl
     (by decide) rfl rfl,
   searchAsset_validation_and_priority.2.2.2.1 envW clientW
     { nid := some "X", threshold := some ((3 : Rat)/2) } ((3 : Rat)/2) rfl
     (Or.inr (by norm_num)),
   searchAsset_validation_and_priority.2.2.2.2 envW clientW
     { nid := some "X", sampleCount := some 0 } 0 rfl
     (Or.inl (by norm_num))⟩

end CaptureSDK
